import Mathlib

/-!
Verification of the European Scaleup Monitor dashboard
(`streamlit_country_app_newlayout.py`) against its natural-language
specification.

The script loads a spreadsheet into a pandas dataframe (one row per country,
columns named `"<MetricPrefix> <Year> %"` / `"... Num"` / `"... Obs"`), filters
it by the selected countries, and renders a trend line chart (2019-2023) and a
latest-year (2023) comparison bar chart.

Modelling conventions for the shallow embedding:
- a dataframe cell is a `Val`: a rational number or the floating NaN marker
  (pandas stores missing cells of an existing column as NaN);
- `Except PyErr` models Python exceptions (`KeyError` from column lookup,
  `IndexError` from `.iloc[0]` on an empty frame / list indexing,
  `ValueError` from `list.index`);
- Python float comparison on NaN is always `False` (`Val.pyLt`);
- `sorted(xs, key=..., reverse=True)` is modelled by CPython's documented
  mechanism: reverse, stable ascending sort by `<` on the keys, reverse again
  (`pySortDescByPct`); on totally ordered keys this is exactly CPython's
  output, and all order-sensitive theorems below assume numeric keys;
- matplotlib's default y-autoscaling (`autolimit_mode = 'data'`) is modelled by
  `autoYlim`: data limits over the finite plotted values, `MaxNLocator`
  singularity expansion (identical limits become `(v-1, v+1)`), then 5%
  margins on both sides; `set_ylim`/`set_xlim` with two identical finite
  values likewise expands them (`setYlim`), and with a NaN limit raises
  `ValueError` (modelled by the `renderError` outcome);
- seaborn's `color_palette("tab10", n)` returns at most the 10 palette
  colors (`np.linspace(0, 1, 10)[:n]` bins), modelled by `colorPaletteTab10`.
-/

namespace ScaleupMonitor

attribute [local semireducible] Rat.mul Rat.add Rat.sub

/-- A dataframe cell: a (rational-valued) float or the NaN missing marker. -/
inductive Val where
  | num (q : ℚ)
  | nan
deriving DecidableEq

/-- Python float multiplication by 100 (`cell * 100`); NaN propagates. -/
def Val.mul100 : Val → Val
  | .num q => .num (q * 100)
  | .nan => .nan

/-- Python float strict comparison: any comparison with NaN is `False`. -/
def Val.pyLt : Val → Val → Bool
  | .num a, .num b => a < b
  | _, _ => false

/-- Whether a cell holds an actual number (not NaN). -/
def Val.isNum : Val → Bool
  | .num _ => true
  | .nan => false

/-- The rational carried by a numeric cell (0 for NaN; only used under
`isNum` hypotheses). -/
def Val.toQ : Val → ℚ
  | .num q => q
  | .nan => 0

/-- Python exceptions raised by the dataframe / list operations the app uses. -/
inductive PyErr where
  | keyError
  | indexError
  | valueError
deriving DecidableEq

/-- Decidable equality for the `Except` results of the modelled Python
operations (used to evaluate the model on concrete inputs). -/
instance exceptDecEq {e a : Type} [DecidableEq e] [DecidableEq a] :
    DecidableEq (Except e a)
  | .ok x, .ok y =>
    if h : x = y then .isTrue (congrArg Except.ok h)
    else .isFalse (fun hh => h (Except.ok.inj hh))
  | .ok _, .error _ => .isFalse (fun hh => Except.noConfusion hh)
  | .error _, .ok _ => .isFalse (fun hh => Except.noConfusion hh)
  | .error x, .error y =>
    if h : x = y then .isTrue (congrArg Except.error h)
    else .isFalse (fun hh => h (Except.error.inj hh))

/-- One dataframe row: the `Country` cell plus the stored cells of that row,
keyed by column name.  A column of the table with no stored entry in a row is
a NaN cell (as in a spreadsheet with blanks). -/
structure Row where
  country : String
  cells : List (String × Val)
deriving DecidableEq

/-- Cell access inside a row: the stored value, or NaN for a blank. -/
def Row.cell (r : Row) (c : String) : Val :=
  match r.cells.find? (fun kv => kv.1 == c) with
  | some kv => kv.2
  | none => .nan

/-- The loaded dataframe: its column space and its rows. -/
structure Dataset where
  cols : List String
  rows : List Row
deriving DecidableEq

/-- `df[df['Country'].isin(selected_countries)]` (line 179). -/
def Dataset.filterCountries (d : Dataset) (sel : List String) : Dataset :=
  ⟨d.cols, d.rows.filter (fun r => sel.contains r.country)⟩

/-- `frame[frame['Country'] == c]`, as a row list (columns unchanged). -/
def Dataset.rowsFor (d : Dataset) (c : String) : List Row :=
  d.rows.filter (fun r => r.country == c)

/-- `filtered_data[filtered_data['Country'] == country]` (lines 202, 268):
the per-country frame derived from the selection-filtered frame. -/
def countryData (d : Dataset) (sel : List String) (c : String) : List Row :=
  (d.filterCountries sel).rowsFor c

/-- `frame[col].iloc[0]`: `KeyError` if the column is absent from the
dataframe, `IndexError` if the frame has no rows, otherwise the first row's
cell (possibly NaN). -/
def seriesIloc0 (d : Dataset) (rs : List Row) (col : String) : Except PyErr Val :=
  if d.cols.contains col then
    match rs with
    | [] => .error .indexError
    | r :: _ => .ok (r.cell col)
  else
    .error .keyError

/-- `f"{selected_metrics} {year} {suffix}"` column names. -/
def colName (p : String) (y : Nat) (s : String) : String :=
  p ++ " " ++ toString y ++ " " ++ s

/-- `x = [2019, 2020, 2021, 2022, 2023]` (line 198). -/
def years : List Nat := [2019, 2020, 2021, 2022, 2023]

/-- One iteration of the trend-view year loop (lines 205-210): if the
percentage column is present, the cell of the country's row scaled by 100,
else NaN; the only possible exception is `IndexError` from `.iloc[0]`. -/
def trendPoint (d : Dataset) (sel : List String) (c : String) (p : String)
    (y : Nat) : Except PyErr Val :=
  let col := colName p y "%"
  if d.cols.contains col then
    (seriesIloc0 d (countryData d sel c) col).map Val.mul100
  else
    .ok .nan

/-- Whether every percentage cell of metric `p` (over the five years) that
sits under an existing column is a fraction in [0, 1].  This is the spec's
data-model invariant "percentage values are stored as fractions (0.0-1.0)". -/
def pctCellsOk (d : Dataset) (p : String) : Bool :=
  d.rows.all (fun r => years.all (fun y =>
    let c := colName p y "%"
    !(d.cols.contains c) ||
      (match r.cell c with
       | .num q => decide (0 ≤ q) && decide (q ≤ 1)
       | .nan => false)))

/-! ### Metric catalog (lines 134-166) -/

/-- `metrics_mapping` (lines 134-143): user-facing metric name to display
label shown in the select control. -/
def metricsMapping : List (String × String) :=
  [("Scaler", "Scaler: Companies with 10%+ growth"),
   ("High Growth Firm", "High Growth Firm: Companies with 20%+ growth"),
   ("Consistent High Growth Firm",
    "Consistent High Growth Firm: Consistent 20%+ growth"),
   ("Consistent Hypergrower", "Consistent Hypergrower: Consistent 40%+ growth"),
   ("Gazelle", "Gazelle: Young high growth firms"),
   ("Mature High Growth Firm",
    "Mature High Growth Firm: Mature high growth firms"),
   ("Scaleup", "Scaleup: Young hypergrowers"),
   ("Superstar", "Superstar: Mature hypergrowers")]

/-- `metrics_to_column` (lines 155-164): user-facing metric name to the
column-name stem used in the dataset. -/
def metricsToColumn : List (String × String) :=
  [("Scaler", "Scaler"),
   ("High Growth Firm", "HighGrowthFirm"),
   ("Consistent High Growth Firm", "ConsistentHighGrowthFirm"),
   ("Consistent Hypergrower", "VeryHighGrowthFirm"),
   ("Gazelle", "Gazelle"),
   ("Mature High Growth Firm", "Mature"),
   ("Scaleup", "Scaleup"),
   ("Superstar", "Superstar")]

/-- Python `xs.index(x)`: first index, `ValueError` when absent. -/
def pyListIndex (xs : List String) (x : String) : Except PyErr Nat :=
  match xs.findIdx? (fun v => v == x) with
  | some i => .ok i
  | none => .error .valueError

/-- Python `xs[i]` on a list: `IndexError` when out of range. -/
def listIdx {α : Type} (xs : List α) (i : Nat) : Except PyErr α :=
  match xs[i]? with
  | some x => .ok x
  | none => .error .indexError

/-- Python `dict[k]`: `KeyError` when absent. -/
def dictGet (m : List (String × String)) (k : String) : Except PyErr String :=
  match m.find? (fun kv => kv.1 == k) with
  | some kv => .ok kv.2
  | none => .error .keyError

/-- Line 152: `list(metrics_mapping.keys())[list(metrics_mapping.values()).index(selected_display)]`. -/
def reverseDisplayLookup (display : String) : Except PyErr String := do
  let i ← pyListIndex (metricsMapping.map (fun kv => kv.2)) display
  listIdx (metricsMapping.map (fun kv => kv.1)) i

/-- Lines 152 and 166 composed: display label back to user-facing name, then
through `metrics_to_column` to the dataset column stem. -/
def displayToColumn (display : String) : Except PyErr String := do
  let u ← reverseDisplayLookup display
  dictGet metricsToColumn u

/-! ### Trend renderer (lines 189-258) -/

/-- The 10 RGB byte triples of matplotlib's `tab10` qualitative palette. -/
def tab10 : List (Nat × Nat × Nat) :=
  [(31, 119, 180), (255, 127, 14), (44, 160, 44), (214, 39, 40),
   (148, 103, 189), (140, 86, 75), (227, 119, 194), (127, 127, 127),
   (188, 189, 34), (23, 190, 207)]

/-- `sns.color_palette("tab10", n)` (line 195): seaborn bins a qualitative
matplotlib palette with `np.linspace(0, 1, 10)[:n]`, so the result has
`min n 10` colors — the first `n` palette colors, capped at the palette
size. -/
def colorPaletteTab10 (n : Nat) : List (Nat × Nat × Nat) :=
  tab10.take n

/-- One plotted line of the trend chart: the country label, the line color,
and the five y-values (NaN for missing points). -/
structure LineSeries where
  country : String
  color : Nat × Nat × Nat
  values : List Val
deriving DecidableEq

/-- One iteration of the trend country loop (lines 201-212): build `ylist`
over the five years, then `ax.plot(..., color=colors[i], label=country)`.
The list indexing `colors[i]` raises `IndexError` when `i` is out of range. -/
def lineFor (d : Dataset) (sel : List String) (colors : List (Nat × Nat × Nat))
    (p : String) (i : Nat) (c : String) : Except PyErr LineSeries := do
  let vals ← years.mapM (fun y => trendPoint d sel c p y)
  let col ← listIdx colors i
  .ok ⟨c, col, vals⟩

/-- `for i, country in enumerate(selected_countries)` (line 201), threading
the enumeration index. -/
def renderTrendGo (d : Dataset) (sel : List String) (p : String)
    (colors : List (Nat × Nat × Nat)) : Nat → List String →
    Except PyErr (List LineSeries)
  | _, [] => .ok []
  | i, c :: cs => do
    let l ← lineFor d sel colors p i c
    let ls ← renderTrendGo d sel p colors (i + 1) cs
    .ok (l :: ls)

/-- The whole trend plotting loop (lines 195-212): one line per selected
country, colored by the tab10 palette sized to the selection. -/
def renderTrendLines (d : Dataset) (sel : List String) (p : String) :
    Except PyErr (List LineSeries) :=
  renderTrendGo d sel p (colorPaletteTab10 sel.length) 0 sel

/-- All y-values handed to `ax.plot` across the drawn lines. -/
def plottedOf (lines : List LineSeries) : List Val :=
  (lines.map LineSeries.values).flatten

/-- The finite (non-NaN) plotted values, which are the only ones entering
matplotlib's data limits. -/
def finiteVals (vs : List Val) : List ℚ :=
  vs.filterMap (fun v => match v with | .num q => some q | .nan => none)

/-- Maximum of a nonempty rational list, `foldl`-style. -/
def qListMax (q : ℚ) (qs : List ℚ) : ℚ := qs.foldl max q

/-- Minimum of a nonempty rational list, `foldl`-style. -/
def qListMin (q : ℚ) (qs : List ℚ) : ℚ := qs.foldl min q

/-- matplotlib `MaxNLocator.nonsingular`: identical finite limits are
expanded to `(v - 1, v + 1)`; distinct limits pass through. -/
def nonsingularLim (a b : ℚ) : ℚ × ℚ :=
  if a = b then (a - 1, b + 1) else (a, b)

/-- matplotlib default y-autoscaling for the trend axes, as read back by
`ax.get_ylim()` (line 234): with no finite data the default `(0, 1)` view;
otherwise the data limits, singularity-expanded, with 5% margins added on
both sides (`axes.ymargin = 0.05`, `autolimit_mode = 'data'`). -/
def autoYlim (plotted : List Val) : ℚ × ℚ :=
  match finiteVals plotted with
  | [] => (0, 1)
  | q :: qs =>
    let ns := nonsingularLim (qListMin q qs) (qListMax q qs)
    let m := mkRat 1 20 * (ns.2 - ns.1)
    (ns.1 - m, ns.2 + m)

/-- matplotlib `ax.set_ylim(b, t)` with finite arguments: identical limits
are warned about and expanded by the locator's `nonsingular`; otherwise the
pair is stored as given. -/
def setYlim (b t : ℚ) : ℚ × ℚ :=
  if b = t then (b - 1, t + 1) else (b, t)

/-- Lines 233-235: `bottom, top = ax.get_ylim(); ax.set_ylim(0, top * 1.1)`
— the final y-axis limits of the trend chart. -/
def trendYlim (lines : List LineSeries) : ℚ × ℚ :=
  let top := (autoYlim (plottedOf lines)).2
  setYlim 0 (top * mkRat 11 10)

/-! ### Comparison renderer (lines 261-321) -/

/-- One entry of `latest_data` (lines 274-279). -/
structure CompEntry where
  country : String
  percentage : Val
  number : Val
  total : Val
deriving DecidableEq

/-- The percentage lookup of the comparison view (line 270), scaling
excluded. -/
def pctLookup (d : Dataset) (sel : List String) (c : String) (p : String) :
    Except PyErr Val :=
  seriesIloc0 d (countryData d sel c) (colName p 2023 "%")

/-- The `Num` lookup of the comparison view (line 271). -/
def numLookup (d : Dataset) (sel : List String) (c : String) (p : String) :
    Except PyErr Val :=
  seriesIloc0 d (countryData d sel c) (colName p 2023 "Num")

/-- The `Obs` lookup of the comparison view (line 272). -/
def obsLookup (d : Dataset) (sel : List String) (c : String) (p : String) :
    Except PyErr Val :=
  seriesIloc0 d (countryData d sel c) (colName p 2023 "Obs")

/-- The `try` block body of the comparison loop (lines 269-279): the three
lookups in program order, the percentage scaled by 100; the first
`KeyError`/`IndexError` aborts the block. -/
def compRow (d : Dataset) (sel : List String) (c : String) (p : String) :
    Except PyErr CompEntry := do
  let pv ← (pctLookup d sel c p).map Val.mul100
  let nv ← numLookup d sel c p
  let ov ← obsLookup d sel c p
  .ok ⟨c, pv, nv, ov⟩

/-- The comparison loop (lines 265-281): a country is appended to
`latest_data` exactly when its `try` block finishes; `except` warns and
continues with the next country. -/
def latestData (d : Dataset) (sel : List String) (p : String) :
    List CompEntry :=
  sel.filterMap (fun c => (compRow d sel c p).toOption)

/-- The countries for which the loop issued the "incomplete" warning. -/
def compWarnings (d : Dataset) (sel : List String) (p : String) :
    List String :=
  sel.filter (fun c => !(compRow d sel c p).toBool)

/-- The comparator underlying `sorted(latest_data, key=lambda x:
x['Percentage'])`: CPython's stable ascending sort only ever asks
`key(a) < key(b)`; this is the induced "not greater" test. -/
def leKey (a b : CompEntry) : Bool :=
  !(Val.pyLt b.percentage a.percentage)

/-- Stable insertion into an ascending-sorted list: `x` goes before the
first element it is `leKey`-below. -/
def orderedInsertByLe (x : CompEntry) : List CompEntry → List CompEntry
  | [] => [x]
  | y :: ys => if leKey x y then x :: y :: ys else y :: orderedInsertByLe x ys

/-- Stable ascending insertion sort by the percentage key. -/
def insertionSortAsc : List CompEntry → List CompEntry
  | [] => []
  | x :: xs => orderedInsertByLe x (insertionSortAsc xs)

/-- Line 285, `sorted(latest_data, key=lambda x: x['Percentage'],
reverse=True)`: CPython implements `reverse=True` by reversing the list,
stable-sorting ascending, and reversing again. -/
def pySortDescByPct (xs : List CompEntry) : List CompEntry :=
  (insertionSortAsc xs.reverse).reverse

/-- Whether a comparison entry carries exactly the numeric percentage `q`
(used to state sort stability per percentage value). -/
def pctMatches (q : ℚ) (e : CompEntry) : Bool :=
  e.percentage == Val.num q

/-- Python `max` over a nonempty sequence: the running value is replaced
when the next item compares strictly greater (so NaN sticks once it is the
running value, and is never picked up afterwards). -/
def pyMax : Val → List Val → Val
  | acc, [] => acc
  | acc, v :: vs => pyMax (if Val.pyLt acc v then v else acc) vs

/-- Python float scaling `v * k`; NaN propagates. -/
def valMulQ (v : Val) (k : ℚ) : Val :=
  match v with
  | .num q => .num (q * k)
  | .nan => .nan

/-- The outcome of the comparison tab (lines 261-321):
* `chart bars xlimTop` — the horizontal bar chart is drawn over `bars`
  (sorted order) and displayed with `set_xlim(0, max(percentages) * 1.2)`;
* `renderError bars` — the bars were drawn but `set_xlim` received a NaN
  limit and raised `ValueError`, so nothing is displayed;
* `noData` — `latest_data` is empty: the "Insufficient data" warning;
* `needTwo` — fewer than two countries selected: the info message. -/
inductive CompOutcome where
  | chart (bars : List CompEntry) (xlimTop : ℚ)
  | renderError (bars : List CompEntry)
  | noData
  | needTwo
deriving DecidableEq

/-- The comparison tab (lines 261-321). -/
def renderComparison (d : Dataset) (sel : List String) (p : String) :
    CompOutcome :=
  if sel.length > 1 then
    match latestData d sel p with
    | [] => .noData
    | e :: es =>
      match pySortDescByPct (e :: es) with
      | [] => .noData
      | o :: os =>
        match valMulQ (pyMax o.percentage (os.map CompEntry.percentage))
            (mkRat 12 10) with
        | .num q => .chart (o :: os) q
        | .nan => .renderError (o :: os)
  else
    .needTwo

/-! ### One full render pass (lines 109-321) -/

/-- The artifacts of one render pass over the two tabs. -/
structure RenderOut where
  trend : Except PyErr (List LineSeries)
  trendAxis : Option (ℚ × ℚ)
  comparison : CompOutcome

/-- One full render pass: filter the loaded table by the selection, draw the
trend tab, then the comparison tab.  Every dataframe operation the script
performs (`isin` filtering, boolean-mask row selection, column reads,
`.iloc`) derives new values; the pass hands back the table it was given. -/
def renderPass (d : Dataset) (sel : List String) (p : String) :
    RenderOut × Dataset :=
  let trend := renderTrendLines d sel p
  let axis := match trend with
    | .ok ls => some (trendYlim ls)
    | .error _ => none
  (⟨trend, axis, renderComparison d sel p⟩, d)

/-! ### Concrete instances used by witnesses and counterexamples -/

/-- A one-country dataset with `Scaler 2019 %` stored as the fraction 0.3. -/
def dsC1 : Dataset :=
  ⟨["Country", "Scaler 2019 %"], [⟨"A", [("Scaler 2019 %", .num (mkRat 3 10))]⟩]⟩

/-- A dataset with complete 2023 data for country B only; the selection also
names the country X, which has no row at all. -/
def dsC2 : Dataset :=
  ⟨["Country", "P 2023 %", "P 2023 Num", "P 2023 Obs"],
   [⟨"B", [("P 2023 %", .num (mkRat 1 2)), ("P 2023 Num", .num 3),
           ("P 2023 Obs", .num 7)]⟩]⟩

/-- Rows for three countries: A holds 1% for 2023, B's percentage cell is
blank (NaN under an existing column), C holds 2%; Num and Obs are complete
for all three, so all three survive the comparison filter. -/
def dsC3x : Dataset :=
  ⟨["Country", "P 2023 %", "P 2023 Num", "P 2023 Obs"],
   [⟨"A", [("P 2023 %", .num (mkRat 1 100)), ("P 2023 Num", .num 1),
           ("P 2023 Obs", .num 1)]⟩,
    ⟨"B", [("P 2023 Num", .num 1), ("P 2023 Obs", .num 1)]⟩,
    ⟨"C", [("P 2023 %", .num (mkRat 2 100)), ("P 2023 Num", .num 1),
           ("P 2023 Obs", .num 1)]⟩]⟩

/-- Two complete rows with numeric percentages 1% and 2%. -/
def dsC3w : Dataset :=
  ⟨["Country", "P 2023 %", "P 2023 Num", "P 2023 Obs"],
   [⟨"A", [("P 2023 %", .num (mkRat 1 100)), ("P 2023 Num", .num 1),
           ("P 2023 Obs", .num 1)]⟩,
    ⟨"C", [("P 2023 %", .num (mkRat 2 100)), ("P 2023 Num", .num 1),
           ("P 2023 Obs", .num 1)]⟩]⟩

/-- Two selected countries, both surviving the comparison filter: A's
percentage cell is blank (NaN under the existing `%` column) while its Num
and Obs cells are present; B is fully numeric. -/
def dsC5x : Dataset :=
  ⟨["Country", "P 2023 %", "P 2023 Num", "P 2023 Obs"],
   [⟨"A", [("P 2023 Num", .num 5), ("P 2023 Obs", .num 10)]⟩,
    ⟨"B", [("P 2023 %", .num (mkRat 1 2)), ("P 2023 Num", .num 3),
           ("P 2023 Obs", .num 7)]⟩]⟩

/-- Two fully numeric complete rows (1% and 2%). -/
def dsC5w : Dataset :=
  ⟨["Country", "P 2023 %", "P 2023 Num", "P 2023 Obs"],
   [⟨"A", [("P 2023 %", .num (mkRat 1 100)), ("P 2023 Num", .num 1),
           ("P 2023 Obs", .num 1)]⟩,
    ⟨"B", [("P 2023 %", .num (mkRat 1 50)), ("P 2023 Num", .num 1),
           ("P 2023 Obs", .num 1)]⟩]⟩

/-- One country with plotted percentages 0 and 10 (fractions 0 and 0.1) and
three missing years. -/
def dsC4x : Dataset :=
  ⟨["Country", "P 2019 %", "P 2020 %"],
   [⟨"A", [("P 2019 %", .num 0), ("P 2020 %", .num (mkRat 1 10))]⟩]⟩

/-- The trend lines drawn for `dsC4x` with selection `["A"]`. -/
def linesC4 : List LineSeries :=
  [⟨"A", (31, 119, 180), [.num 0, .num 10, .nan, .nan, .nan]⟩]

/-- Eleven country names, one more than the tab10 palette holds. -/
def selC7 : List String :=
  ["C01", "C02", "C03", "C04", "C05", "C06", "C07", "C08", "C09", "C10",
   "C11"]

/-- A dataset with a row for each of the eleven countries of `selC7` (no
metric columns; every trend point is the missing marker). -/
def dsC7x : Dataset :=
  ⟨["Country"], selC7.map (fun c => ⟨c, []⟩)⟩

/-- Two countries with no metric columns at all. -/
def dsC7w : Dataset :=
  ⟨["Country"], [⟨"A", []⟩, ⟨"B", []⟩]⟩

/-- One country whose two plotted percentages are -5 and -105 (fractions
-0.05 and -1.05), chosen so that the autoscaled top is exactly 0. -/
def dsC8x : Dataset :=
  ⟨["Country", "P 2019 %", "P 2020 %"],
   [⟨"A", [("P 2019 %", .num (-(mkRat 1 20))),
           ("P 2020 %", .num (-(mkRat 21 20)))]⟩]⟩

/-- One country with the single plotted percentage 25 (fraction 0.25). -/
def dsC8w : Dataset :=
  ⟨["Country", "P 2019 %"], [⟨"A", [("P 2019 %", .num (mkRat 1 4))]⟩]⟩

/-- The trend lines drawn for `dsC8w` with selection `["A"]`. -/
def linesC8 : List LineSeries :=
  [⟨"A", (31, 119, 180), [.num 25, .nan, .nan, .nan, .nan]⟩]

/-- C6: for each of the 8 metric display labels offered in the select control,
the reverse lookup from display label to user-facing metric name, composed
with the metric-to-column-prefix mapping, recovers the underlying dataset
column stems Scaler, HighGrowthFirm, ConsistentHighGrowthFirm,
VeryHighGrowthFirm, Gazelle, Mature, Scaleup, Superstar respectively. -/
theorem metric_catalog_round_trip :
    displayToColumn "Scaler: Companies with 10%+ growth" = .ok "Scaler" ∧
    displayToColumn "High Growth Firm: Companies with 20%+ growth"
      = .ok "HighGrowthFirm" ∧
    displayToColumn "Consistent High Growth Firm: Consistent 20%+ growth"
      = .ok "ConsistentHighGrowthFirm" ∧
    displayToColumn "Consistent Hypergrower: Consistent 40%+ growth"
      = .ok "VeryHighGrowthFirm" ∧
    displayToColumn "Gazelle: Young high growth firms" = .ok "Gazelle" ∧
    displayToColumn "Mature High Growth Firm: Mature high growth firms"
      = .ok "Mature" ∧
    displayToColumn "Scaleup: Young hypergrowers" = .ok "Scaleup" ∧
    displayToColumn "Superstar: Mature hypergrowers" = .ok "Superstar" := by
  refine ⟨?_, ?_, ?_, ?_, ?_, ?_, ?_, ?_⟩ <;> rfl

/-! ### Helper lemmas -/

theorem exceptToBool_true {ε α : Type} {x : Except ε α} :
    x.toBool = true ↔ ∃ a, x = .ok a := by
  cases x <;> simp [Except.toBool]

theorem exceptToOption_some {ε α : Type} {x : Except ε α} {a : α} :
    x.toOption = some a ↔ x = .ok a := by
  cases x <;> simp [Except.toOption]

theorem exceptToOption_none_of_toBool {ε α : Type} {x : Except ε α}
    (h : x.toBool = false) : x.toOption = none := by
  cases x with
  | ok a => simp [Except.toBool] at h
  | error e => rfl

theorem countryData_eq (d : Dataset) (sel : List String) (c : String) :
    countryData d sel c
      = (d.rows.filter (fun r => sel.contains r.country)).filter
          (fun r => r.country == c) := rfl

theorem mem_rows_of_mem_countryData {d : Dataset} {sel : List String}
    {c : String} {r : Row} (h : r ∈ countryData d sel c) : r ∈ d.rows := by
  rw [countryData_eq] at h
  exact (List.mem_filter.mp (List.mem_filter.mp h).1).1

theorem countryData_ne_nil {d : Dataset} {sel : List String} {c : String}
    (hcsel : c ∈ sel) (hrow : ∃ r ∈ d.rows, r.country = c) :
    countryData d sel c ≠ [] := by
  obtain ⟨r, hr, hrc⟩ := hrow
  apply List.ne_nil_of_mem (a := r)
  rw [countryData_eq]
  refine List.mem_filter.mpr ⟨List.mem_filter.mpr ⟨hr, ?_⟩, ?_⟩
  · rw [hrc]; exact List.elem_iff.mpr hcsel
  · rw [hrc]; simp

theorem pctCell_ok {d : Dataset} {p : String} (hwf : pctCellsOk d p = true)
    {r : Row} (hr : r ∈ d.rows) {y : Nat} (hy : y ∈ years)
    (hcol : colName p y "%" ∈ d.cols) :
    ∃ q, r.cell (colName p y "%") = .num q ∧ 0 ≤ q ∧ q ≤ 1 := by
  have h1 := (List.all_eq_true.mp hwf) r hr
  have h2 := (List.all_eq_true.mp h1) y hy
  simp only [List.elem_iff.mpr hcol, Bool.not_true, Bool.false_or] at h2
  cases hcell : r.cell (colName p y "%") with
  | num q =>
    rw [hcell] at h2
    simp only [Bool.and_eq_true, decide_eq_true_eq] at h2
    exact ⟨q, rfl, h2.1, h2.2⟩
  | nan => rw [hcell] at h2; cases h2

theorem trendPoint_ok {d : Dataset} {sel : List String} {c p : String}
    {y : Nat} (hcsel : c ∈ sel) (hrow : ∃ r ∈ d.rows, r.country = c) :
    ∃ v, trendPoint d sel c p y = .ok v := by
  by_cases hcol : colName p y "%" ∈ d.cols
  · cases hcd : countryData d sel c with
    | nil => exact absurd hcd (countryData_ne_nil hcsel hrow)
    | cons r0 rest =>
      exact ⟨(r0.cell (colName p y "%")).mul100,
        by simp [trendPoint, hcol, seriesIloc0, hcd, Except.map]⟩
  · exact ⟨.nan, by simp [trendPoint, hcol]⟩

theorem mapM_ok_of_forall {α β : Type} (f : α → Except PyErr β)
    (l : List α) (h : ∀ a ∈ l, ∃ b, f a = .ok b) :
    ∃ bs, l.mapM f = .ok bs := by
  induction l with
  | nil => exact ⟨[], rfl⟩
  | cons a l ih =>
    obtain ⟨b, hb⟩ := h a (List.mem_cons_self a l)
    obtain ⟨bs, hbs⟩ := ih (fun a ha => h a (List.mem_cons_of_mem _ ha))
    exact ⟨b :: bs, by rw [List.mapM_cons, hb, hbs]; rfl⟩

/-- C1: for every dataset whose percentage cells are fractions in [0, 1],
every metric stem, every selected country present in the dataset's Country
column, and every year in 2019..2023, the trend-view extraction never
throws: when the column `"<stem> <year> %"` is present it yields the cell
value scaled by 100 (a number in [0, 100]); when absent it yields NaN. -/
theorem trend_extract_total (d : Dataset) (sel : List String) (c p : String)
    (y : Nat) (hwf : pctCellsOk d p = true) (hcsel : c ∈ sel)
    (hrow : ∃ r ∈ d.rows, r.country = c) (hy : y ∈ years) :
    ∃ v, trendPoint d sel c p y = .ok v ∧
      (colName p y "%" ∈ d.cols → ∃ q, v = .num q ∧ 0 ≤ q ∧ q ≤ 100) ∧
      (colName p y "%" ∉ d.cols → v = .nan) := by
  by_cases hcol : colName p y "%" ∈ d.cols
  · cases hcd : countryData d sel c with
    | nil => exact absurd hcd (countryData_ne_nil hcsel hrow)
    | cons r0 rest =>
      have hr0 : r0 ∈ d.rows :=
        mem_rows_of_mem_countryData (hcd ▸ List.mem_cons_self r0 rest)
      obtain ⟨q, hq, hq0, hq1⟩ := pctCell_ok hwf hr0 hy hcol
      refine ⟨.num (q * 100), ?_, ?_, ?_⟩
      · simp [trendPoint, hcol, seriesIloc0, hcd, hq, Val.mul100, Except.map]
      · exact fun _ => ⟨q * 100, rfl, by positivity, by nlinarith⟩
      · exact fun h => absurd hcol h
  · exact ⟨.nan, by simp [trendPoint, hcol], fun h => absurd h hcol, fun _ => rfl⟩

theorem trend_extract_total_witness :
    pctCellsOk dsC1 "Scaler" = true ∧ "A" ∈ ["A"] ∧
    (∃ r ∈ dsC1.rows, r.country = "A") ∧ 2019 ∈ years ∧
    (∃ v, trendPoint dsC1 ["A"] "A" "Scaler" 2019 = .ok v ∧
      (colName "Scaler" 2019 "%" ∈ dsC1.cols →
        ∃ q, v = .num q ∧ 0 ≤ q ∧ q ≤ 100) ∧
      (colName "Scaler" 2019 "%" ∉ dsC1.cols → v = .nan)) :=
  ⟨by decide, by decide, by decide, by decide,
    trend_extract_total dsC1 ["A"] "A" "Scaler" 2019 (by decide) (by decide)
      (by decide) (by decide)⟩

theorem compRow_ok_iff (d : Dataset) (sel : List String) (c p : String) :
    (compRow d sel c p).toBool = true ↔
      ((pctLookup d sel c p).toBool = true ∧
       (numLookup d sel c p).toBool = true ∧
       (obsLookup d sel c p).toBool = true) := by
  cases hp : pctLookup d sel c p <;> cases hn : numLookup d sel c p <;>
    cases ho : obsLookup d sel c p <;>
      simp [compRow, hp, hn, ho, Except.map, Except.bind, bind, pure,
        Except.pure, Except.toBool]

theorem compRow_parts {d : Dataset} {sel : List String} {c p : String}
    {e : CompEntry} (h : compRow d sel c p = .ok e) :
    ∃ pv nv ov, pctLookup d sel c p = .ok pv ∧ numLookup d sel c p = .ok nv ∧
      obsLookup d sel c p = .ok ov ∧ e = ⟨c, pv.mul100, nv, ov⟩ := by
  cases hp : pctLookup d sel c p with
  | error e1 =>
    rw [compRow, hp] at h; cases h
  | ok pv =>
    cases hn : numLookup d sel c p with
    | error e1 =>
      rw [compRow, hp] at h
      simp only [Except.map, Except.bind, bind, hn] at h; cases h
    | ok nv =>
      cases ho : obsLookup d sel c p with
      | error e1 =>
        rw [compRow, hp] at h
        simp only [Except.map, Except.bind, bind, hn, ho] at h; cases h
      | ok ov =>
        rw [compRow, hp] at h
        simp only [Except.map, Except.bind, bind, hn, ho, pure,
          Except.pure] at h
        injection h with h2
        exact ⟨pv, nv, ov, rfl, rfl, rfl, h2.symm⟩

theorem compRow_country {d : Dataset} {sel : List String} {c p : String}
    {e : CompEntry} (h : compRow d sel c p = .ok e) : e.country = c := by
  obtain ⟨pv, nv, ov, _, _, _, he⟩ := compRow_parts h
  rw [he]

theorem mem_latestData_iff {d : Dataset} {sel : List String} {p c : String}
    (hc : c ∈ sel) :
    (∃ e ∈ latestData d sel p, e.country = c) ↔
      (compRow d sel c p).toBool = true := by
  constructor
  · rintro ⟨e, he, hec⟩
    obtain ⟨c2, _, hfc2⟩ := List.mem_filterMap.mp he
    have hcc : c2 = c := by
      rw [← hec, compRow_country (exceptToOption_some.mp hfc2)]
    rw [← hcc]
    exact exceptToBool_true.mpr ⟨e, exceptToOption_some.mp hfc2⟩
  · intro h
    obtain ⟨e, he⟩ := exceptToBool_true.mp h
    exact ⟨e, List.mem_filterMap.mpr ⟨c, hc, exceptToOption_some.mpr he⟩,
      compRow_country he⟩

/-- C2: in the comparison view a selected country is included in
`latest_data` exactly when the percentage, Num, and Obs lookups for 2023 all
succeed; when a country's `try` block fails, that country alone is dropped
(the remaining selected countries before and after it are processed
unchanged) and the per-country incomplete-data warning is issued for it. -/
theorem comparison_inclusion (d : Dataset) (sel : List String) (p : String)
    (cf : String) (pre post : List String) (hsel : sel = pre ++ cf :: post)
    (hfail : (compRow d sel cf p).toBool = false) :
    (∀ c ∈ sel, (∃ e ∈ latestData d sel p, e.country = c) ↔
      ((pctLookup d sel c p).toBool = true ∧
       (numLookup d sel c p).toBool = true ∧
       (obsLookup d sel c p).toBool = true)) ∧
    latestData d sel p
      = pre.filterMap (fun c => (compRow d sel c p).toOption)
        ++ post.filterMap (fun c => (compRow d sel c p).toOption) ∧
    cf ∈ compWarnings d sel p := by
  refine ⟨?_, ?_, ?_⟩
  · intro c hc
    rw [mem_latestData_iff hc]
    exact compRow_ok_iff d sel c p
  · have hsplit : ∀ (f : String → Option CompEntry), f cf = none →
        (pre ++ cf :: post).filterMap f = pre.filterMap f ++ post.filterMap f := by
      intro f hf
      rw [List.filterMap_append, List.filterMap_cons, hf]
    calc latestData d sel p
        = (pre ++ cf :: post).filterMap
            (fun c => (compRow d sel c p).toOption) := by
          rw [latestData, hsel]
      _ = _ := hsplit _ (exceptToOption_none_of_toBool hfail)
  · refine List.mem_filter.mpr ⟨?_, ?_⟩
    · rw [hsel]; exact List.mem_append_right _ (List.mem_cons_self cf post)
    · rw [hfail]; rfl

theorem comparison_inclusion_witness :
    (["X", "B"] : List String) = [] ++ "X" :: ["B"] ∧
    (compRow dsC2 ["X", "B"] "X" "P").toBool = false ∧
    ((∀ c ∈ (["X", "B"] : List String),
      (∃ e ∈ latestData dsC2 ["X", "B"] "P", e.country = c) ↔
        ((pctLookup dsC2 ["X", "B"] c "P").toBool = true ∧
         (numLookup dsC2 ["X", "B"] c "P").toBool = true ∧
         (obsLookup dsC2 ["X", "B"] c "P").toBool = true)) ∧
    latestData dsC2 ["X", "B"] "P"
      = ([] : List String).filterMap
          (fun c => (compRow dsC2 ["X", "B"] c "P").toOption)
        ++ (["B"] : List String).filterMap
          (fun c => (compRow dsC2 ["X", "B"] c "P").toOption) ∧
    "X" ∈ compWarnings dsC2 ["X", "B"] "P") :=
  ⟨rfl, by decide,
    comparison_inclusion dsC2 ["X", "B"] "P" "X" [] ["B"] rfl (by decide)⟩

/-! ### Sorting lemmas for the comparison view -/

theorem orderedInsertByLe_perm (x : CompEntry) (l : List CompEntry) :
    (orderedInsertByLe x l).Perm (x :: l) := by
  induction l with
  | nil => exact List.Perm.refl _
  | cons y ys ih =>
    rw [orderedInsertByLe]
    by_cases h : leKey x y = true
    · rw [if_pos h]
    · rw [if_neg h]
      exact (ih.cons y).trans (List.Perm.swap x y ys)

theorem insertionSortAsc_perm (l : List CompEntry) :
    (insertionSortAsc l).Perm l := by
  induction l with
  | nil => exact List.Perm.refl _
  | cons x xs ih =>
    rw [insertionSortAsc]
    exact (orderedInsertByLe_perm x (insertionSortAsc xs)).trans (ih.cons x)

theorem mem_pySortDescByPct {e : CompEntry} {xs : List CompEntry} :
    e ∈ pySortDescByPct xs ↔ e ∈ xs := by
  rw [pySortDescByPct, List.mem_reverse,
    (insertionSortAsc_perm xs.reverse).mem_iff, List.mem_reverse]

theorem length_pySortDescByPct (xs : List CompEntry) :
    (pySortDescByPct xs).length = xs.length := by
  rw [pySortDescByPct, List.length_reverse,
    (insertionSortAsc_perm xs.reverse).length_eq, List.length_reverse]

theorem pyLt_shape {a b : Val} (h : Val.pyLt a b = true) :
    ∃ qa qb, a = .num qa ∧ b = .num qb ∧ qa < qb := by
  cases a with
  | nan => cases b <;> cases h
  | num qa =>
    cases b with
    | nan => cases h
    | num qb =>
      simp only [Val.pyLt, decide_eq_true_eq] at h
      exact ⟨qa, qb, rfl, rfl, h⟩

theorem leKey_numeric {a b : CompEntry} (ha : a.percentage.isNum = true)
    (hb : b.percentage.isNum = true) :
    leKey a b = true ↔ a.percentage.toQ ≤ b.percentage.toQ := by
  cases hpa : a.percentage with
  | nan => rw [hpa] at ha; cases ha
  | num qa =>
    cases hpb : b.percentage with
    | nan => rw [hpb] at hb; cases hb
    | num qb => simp [leKey, Val.pyLt, Val.toQ, hpa, hpb, not_lt]

theorem leKey_false {a b : CompEntry} (h : ¬leKey a b = true) :
    ∃ qa qb, a.percentage = .num qa ∧ b.percentage = .num qb ∧ qb < qa := by
  rw [leKey] at h
  have h2 : Val.pyLt b.percentage a.percentage = true := by
    cases hlt : Val.pyLt b.percentage a.percentage with
    | false => rw [hlt] at h; cases h rfl
    | true => rfl
  obtain ⟨qb, qa, hqb, hqa, hlt⟩ := pyLt_shape h2
  exact ⟨qa, qb, hqa, hqb, hlt⟩

theorem orderedInsertByLe_pairwise {x : CompEntry} {l : List CompEntry}
    (hx : x.percentage.isNum = true)
    (hl : ∀ e ∈ l, e.percentage.isNum = true)
    (hs : l.Pairwise (fun a b => a.percentage.toQ ≤ b.percentage.toQ)) :
    (orderedInsertByLe x l).Pairwise
      (fun a b => a.percentage.toQ ≤ b.percentage.toQ) := by
  induction l with
  | nil => simp [orderedInsertByLe]
  | cons y ys ih =>
    rw [orderedInsertByLe]
    have hy : y.percentage.isNum = true := hl y (List.mem_cons_self y ys)
    rw [List.pairwise_cons] at hs
    by_cases h : leKey x y = true
    · rw [if_pos h]
      refine List.pairwise_cons.mpr ⟨?_, List.pairwise_cons.mpr ⟨hs.1, hs.2⟩⟩
      intro z hz
      rcases List.mem_cons.mp hz with hz | hz
      · rw [hz]; exact (leKey_numeric hx hy).mp h
      · exact le_trans ((leKey_numeric hx hy).mp h) (hs.1 z hz)
    · rw [if_neg h]
      refine List.pairwise_cons.mpr
        ⟨?_, ih (fun e he => hl e (List.mem_cons_of_mem _ he)) hs.2⟩
      intro z hz
      have hz2 := (orderedInsertByLe_perm x ys).mem_iff.mp hz
      rcases List.mem_cons.mp hz2 with hz2 | hz2
      · rw [hz2]
        obtain ⟨qx, qy, hqx, hqy, hlt⟩ := leKey_false h
        rw [hqx, hqy, Val.toQ]
        exact le_of_lt hlt
      · exact hs.1 z hz2

theorem insertionSortAsc_pairwise {l : List CompEntry}
    (hl : ∀ e ∈ l, e.percentage.isNum = true) :
    (insertionSortAsc l).Pairwise
      (fun a b => a.percentage.toQ ≤ b.percentage.toQ) := by
  induction l with
  | nil => simp [insertionSortAsc]
  | cons x xs ih =>
    rw [insertionSortAsc]
    refine orderedInsertByLe_pairwise (hl x (List.mem_cons_self x xs))
      (fun e he => hl e (List.mem_cons_of_mem _
        ((insertionSortAsc_perm xs).mem_iff.mp he)))
      (ih (fun e he => hl e (List.mem_cons_of_mem _ he)))

theorem pySortDescByPct_pairwise {xs : List CompEntry}
    (hxs : ∀ e ∈ xs, e.percentage.isNum = true) :
    (pySortDescByPct xs).Pairwise
      (fun a b => b.percentage.toQ ≤ a.percentage.toQ) := by
  rw [pySortDescByPct, List.pairwise_reverse]
  exact insertionSortAsc_pairwise (fun e he => hxs e (List.mem_reverse.mp he))

theorem orderedInsertByLe_filter {x : CompEntry} {qx : ℚ}
    (hx : x.percentage = .num qx) (q : ℚ) (l : List CompEntry) :
    (orderedInsertByLe x l).filter (pctMatches q)
      = if qx = q then x :: l.filter (pctMatches q)
        else l.filter (pctMatches q) := by
  by_cases hq : qx = q
  · have hxq : pctMatches q x = true := by simp [pctMatches, hx, hq]
    rw [if_pos hq]
    induction l with
    | nil => simp [orderedInsertByLe, List.filter_cons, hxq]
    | cons y ys ih =>
      rw [orderedInsertByLe]
      by_cases h : leKey x y = true
      · rw [if_pos h, List.filter_cons, hxq]; rfl
      · rw [if_neg h]
        obtain ⟨qx2, qy, hqx2, hqy, hlt⟩ := leKey_false h
        have hqxx : qx2 = qx := by
          rw [hx] at hqx2; injection hqx2 with h2; exact h2.symm
        have hy_ne : pctMatches q y = false := by
          simp only [pctMatches, hqy]
          have : qy ≠ q := by rw [← hq, ← hqxx]; exact ne_of_lt hlt
          simp [this]
        simp only [List.filter_cons, hy_ne, Bool.false_eq_true, if_false, ih]
  · have hxq : pctMatches q x = false := by simp [pctMatches, hx, hq]
    rw [if_neg hq]
    induction l with
    | nil => simp [orderedInsertByLe, List.filter_cons, hxq]
    | cons y ys ih =>
      rw [orderedInsertByLe]
      by_cases h : leKey x y = true
      · rw [if_pos h, List.filter_cons, hxq]; rfl
      · rw [if_neg h]
        simp only [List.filter_cons, ih]

theorem insertionSortAsc_filter {l : List CompEntry}
    (hl : ∀ e ∈ l, e.percentage.isNum = true) (q : ℚ) :
    (insertionSortAsc l).filter (pctMatches q) = l.filter (pctMatches q) := by
  induction l with
  | nil => rfl
  | cons x xs ih =>
    have hx := hl x (List.mem_cons_self x xs)
    obtain ⟨qx, hqx⟩ : ∃ qx, x.percentage = .num qx := by
      cases hpx : x.percentage with
      | num q2 => exact ⟨q2, rfl⟩
      | nan => rw [hpx] at hx; cases hx
    rw [insertionSortAsc, orderedInsertByLe_filter hqx q,
      ih (fun e he => hl e (List.mem_cons_of_mem _ he))]
    by_cases hq : qx = q
    · have hxq : pctMatches q x = true := by simp [pctMatches, hqx, hq]
      rw [if_pos hq, List.filter_cons, hxq]
      rfl
    · have hxq : pctMatches q x = false := by simp [pctMatches, hqx, hq]
      rw [if_neg hq, List.filter_cons, hxq]
      rfl

theorem pySortDescByPct_filter {xs : List CompEntry}
    (hxs : ∀ e ∈ xs, e.percentage.isNum = true) (q : ℚ) :
    (pySortDescByPct xs).filter (pctMatches q) = xs.filter (pctMatches q) := by
  rw [pySortDescByPct, List.filter_reverse,
    insertionSortAsc_filter (fun e he => hxs e (List.mem_reverse.mp he)) q,
    List.filter_reverse, List.reverse_reverse]

theorem pctLookup_parts {d : Dataset} {sel : List String} {c p : String}
    {pv : Val} (h : pctLookup d sel c p = .ok pv) :
    colName p 2023 "%" ∈ d.cols ∧
      ∃ r rest, countryData d sel c = r :: rest ∧ r ∈ d.rows ∧
        pv = r.cell (colName p 2023 "%") := by
  rw [pctLookup, seriesIloc0.eq_def] at h
  by_cases hcol : d.cols.contains (colName p 2023 "%") = true
  · rw [if_pos hcol] at h
    cases hcd : countryData d sel c with
    | nil => rw [hcd] at h; cases h
    | cons r rest =>
      rw [hcd] at h
      injection h with h2
      exact ⟨List.elem_iff.mp hcol, r, rest, rfl,
        mem_rows_of_mem_countryData (hcd ▸ List.mem_cons_self r rest), h2.symm⟩
  · rw [if_neg hcol] at h; cases h

theorem latestData_numeric {d : Dataset} {sel : List String} {p : String}
    (hwf : pctCellsOk d p = true) :
    ∀ e ∈ latestData d sel p, e.percentage.isNum = true := by
  intro e he
  obtain ⟨c, _, hfc⟩ := List.mem_filterMap.mp he
  obtain ⟨pv, nv, ov, hp, _, _, hee⟩ :=
    compRow_parts (exceptToOption_some.mp hfc)
  obtain ⟨hcol, r, rest, hcd, hr, hpv⟩ := pctLookup_parts hp
  obtain ⟨q2, hq2, _, _⟩ := pctCell_ok hwf hr (by decide) hcol
  rw [hee]
  show (pv.mul100).isNum = true
  rw [hpv, hq2]
  rfl

/-- C3 counterexample: with three surviving countries whose 2023 percentages
are 1%, NaN, and 2% (in selection order), the comparison sort leaves the
list unchanged — the NaN key makes every comparison `False`, so CPython
treats the reversed list as already sorted — and the 1% country is placed
before the 2% country, violating the claimed descending order. -/
theorem comparison_sort_counterexample :
    (pySortDescByPct (latestData dsC3x ["A", "B", "C"] "P")).map
        CompEntry.percentage = [.num 1, .nan, .num 2] ∧ (1 : ℚ) < 2 := by
  constructor
  · decide
  · decide

/-- C3 amended: when the dataset's percentage cells are numeric fractions
(so every surviving percentage is a number and the sort keys are totally
ordered), the comparison chart's sorted output is descending by percentage —
for surviving countries A and B, if A's percentage is strictly greater then
A appears before B — and the sort is stable: for each percentage value, the
countries carrying it keep their original selection order.  With a NaN
percentage among the survivors the descending property can fail (see the
counterexample). -/
theorem comparison_sort_desc (d : Dataset) (sel : List String) (p : String)
    (hwf : pctCellsOk d p = true) :
    (pySortDescByPct (latestData d sel p)).Pairwise
      (fun a b => b.percentage.toQ ≤ a.percentage.toQ) ∧
    ∀ q : ℚ, (pySortDescByPct (latestData d sel p)).filter (pctMatches q)
      = (latestData d sel p).filter (pctMatches q) :=
  ⟨pySortDescByPct_pairwise (latestData_numeric hwf),
   fun q => pySortDescByPct_filter (latestData_numeric hwf) q⟩

theorem comparison_sort_desc_witness :
    pctCellsOk dsC3w "P" = true ∧
    ((pySortDescByPct (latestData dsC3w ["A", "C"] "P")).Pairwise
        (fun a b => b.percentage.toQ ≤ a.percentage.toQ) ∧
      ∀ q : ℚ, (pySortDescByPct (latestData dsC3w ["A", "C"] "P")).filter
          (pctMatches q)
        = (latestData dsC3w ["A", "C"] "P").filter (pctMatches q)) :=
  ⟨by decide, comparison_sort_desc dsC3w ["A", "C"] "P" (by decide)⟩

/-! ### Comparison renderer lemmas -/

theorem pyMax_numeric {acc : Val} {vs : List Val} (ha : acc.isNum = true)
    (hv : ∀ v ∈ vs, v.isNum = true) : (pyMax acc vs).isNum = true := by
  induction vs generalizing acc with
  | nil => exact ha
  | cons v vs ih =>
    rw [pyMax]
    by_cases h : Val.pyLt acc v = true
    · rw [if_pos h]
      exact ih (hv v (List.mem_cons_self v vs))
        (fun w hw => hv w (List.mem_cons_of_mem _ hw))
    · rw [if_neg h]
      exact ih ha (fun w hw => hv w (List.mem_cons_of_mem _ hw))

theorem isNum_exists {v : Val} (h : v.isNum = true) : ∃ q, v = .num q := by
  cases v with
  | num q => exact ⟨q, rfl⟩
  | nan => cases h

theorem renderComparison_needTwo {d : Dataset} {sel : List String}
    {p : String} (hlen : ¬sel.length > 1) :
    renderComparison d sel p = .needTwo := by
  rw [renderComparison, if_neg hlen]

theorem renderComparison_noData {d : Dataset} {sel : List String} {p : String}
    (hlen : sel.length > 1) (hld : latestData d sel p = []) :
    renderComparison d sel p = .noData := by
  simp only [renderComparison, hld]
  rw [if_pos hlen]

theorem renderComparison_eq {d : Dataset} {sel : List String} {p : String}
    {e0 o : CompEntry} {es os : List CompEntry}
    (hlen : sel.length > 1) (hld : latestData d sel p = e0 :: es)
    (hout : pySortDescByPct (e0 :: es) = o :: os) :
    renderComparison d sel p
      = match valMulQ (pyMax o.percentage (os.map CompEntry.percentage))
          (mkRat 12 10) with
        | .num q => .chart (o :: os) q
        | .nan => .renderError (o :: os) := by
  simp only [renderComparison, hld, hout]
  rw [if_pos hlen]

/-- C5 counterexample: with two selected countries both surviving the
completeness filter (A's percentage cell is NaN under an existing column),
the sort places the NaN entry first, Python's `max` over the percentages is
then NaN, and `ax.set_xlim(0, nan * 1.2)` raises `ValueError` — no chart is
shown although at least two countries are selected and both survive. -/
theorem comparison_chart_counterexample :
    renderComparison dsC5x ["A", "B"] "P"
      = .renderError
          [⟨"A", .nan, .num 5, .num 10⟩, ⟨"B", .num 50, .num 3, .num 7⟩] ∧
    2 ≤ (["A", "B"] : List String).length ∧
    latestData dsC5x ["A", "B"] "P" ≠ [] := by
  refine ⟨by decide, by decide, by decide⟩

/-- C5 amended: when the dataset's percentage cells are numeric fractions
(so no surviving percentage is NaN and the x-limit computation yields a
number), the comparison renderer produces a chart exactly when at least two
countries are selected and at least one survives; with fewer than two
selected it produces the informational message, and with two or more
selected but no survivors it produces the no-data warning.  With a
surviving NaN percentage sorted first, the render instead fails with an
axis-limit error and shows no chart (see the counterexample). -/
theorem comparison_chart_condition (d : Dataset) (sel : List String)
    (p : String) (hwf : pctCellsOk d p = true) :
    ((∃ bars x, renderComparison d sel p = .chart bars x) ↔
        (2 ≤ sel.length ∧ latestData d sel p ≠ [])) ∧
    (renderComparison d sel p = .needTwo ↔ sel.length < 2) ∧
    (renderComparison d sel p = .noData ↔
        (2 ≤ sel.length ∧ latestData d sel p = [])) := by
  by_cases hlen : sel.length > 1
  · cases hld : latestData d sel p with
    | nil =>
      rw [renderComparison_noData hlen hld]
      refine ⟨⟨?_, ?_⟩, ⟨?_, ?_⟩, ⟨fun _ => ⟨hlen, rfl⟩, fun _ => rfl⟩⟩
      · rintro ⟨bars, x, hbx⟩; cases hbx
      · rintro ⟨_, hne⟩; exact absurd rfl hne
      · intro h; cases h
      · intro h; exact absurd h (by omega)
    | cons e0 es =>
      have hnum : ∀ e2 ∈ pySortDescByPct (e0 :: es),
          e2.percentage.isNum = true := by
        intro e2 he2
        exact latestData_numeric hwf e2 (hld ▸ mem_pySortDescByPct.mp he2)
      cases hout : pySortDescByPct (e0 :: es) with
      | nil =>
        have hl2 := length_pySortDescByPct (e0 :: es)
        rw [hout] at hl2
        cases hl2
      | cons o os =>
        have honum :
            (pyMax o.percentage (os.map CompEntry.percentage)).isNum
              = true := by
          apply pyMax_numeric
          · exact hnum o (hout ▸ List.mem_cons_self o os)
          · intro w hw
            obtain ⟨e2, he2, hw2⟩ := List.mem_map.mp hw
            rw [← hw2]
            exact hnum e2 (hout ▸ List.mem_cons_of_mem _ he2)
        obtain ⟨qm, hqm⟩ := isNum_exists honum
        have hrc : renderComparison d sel p
            = .chart (o :: os) (qm * mkRat 12 10) := by
          rw [renderComparison_eq hlen hld hout, hqm]
          rfl
        rw [hrc]
        refine ⟨⟨fun _ => ⟨hlen, ?_⟩,
          fun _ => ⟨o :: os, qm * mkRat 12 10, rfl⟩⟩, ⟨?_, ?_⟩, ⟨?_, ?_⟩⟩
        · exact List.cons_ne_nil e0 es
        · intro h; cases h
        · intro h; exact absurd h (by omega)
        · intro h; cases h
        · rintro ⟨_, h2⟩; exact absurd h2 (List.cons_ne_nil e0 es)
  · rw [renderComparison_needTwo hlen]
    refine ⟨⟨?_, ?_⟩, ⟨fun _ => by omega, fun _ => rfl⟩, ⟨?_, ?_⟩⟩
    · rintro ⟨bars, x, hbx⟩; cases hbx
    · rintro ⟨h2, _⟩; exact absurd h2 hlen
    · intro h; cases h
    · rintro ⟨h2, _⟩; exact absurd h2 hlen

theorem comparison_chart_condition_witness :
    pctCellsOk dsC5w "P" = true ∧
    (((∃ bars x, renderComparison dsC5w ["A", "B"] "P" = .chart bars x) ↔
        (2 ≤ (["A", "B"] : List String).length ∧
          latestData dsC5w ["A", "B"] "P" ≠ [])) ∧
    (renderComparison dsC5w ["A", "B"] "P" = .needTwo ↔
        (["A", "B"] : List String).length < 2) ∧
    (renderComparison dsC5w ["A", "B"] "P" = .noData ↔
        (2 ≤ (["A", "B"] : List String).length ∧
          latestData dsC5w ["A", "B"] "P" = []))) :=
  ⟨by decide, comparison_chart_condition dsC5w ["A", "B"] "P" (by decide)⟩

/-- C10: a selected country whose 2023 percentage column exists but holds a
NaN cell is not excluded from the comparison — the `try` block raises no
`KeyError`/`IndexError` when the Num and Obs lookups also succeed — so the
country enters `latest_data` with a NaN percentage, gets no incomplete-data
warning, appears in the sorted list, and is among the bars handed to
`ax.barh` (whether or not the later `set_xlim` call then fails on the NaN
maximum). -/
theorem comparison_nan_included (d : Dataset) (sel : List String)
    (c p : String) (hlen : 2 ≤ sel.length) (hcsel : c ∈ sel)
    (hpct : pctLookup d sel c p = .ok .nan)
    (hnum : (numLookup d sel c p).toBool = true)
    (hobs : (obsLookup d sel c p).toBool = true) :
    (∃ e, compRow d sel c p = .ok e ∧ e.country = c ∧ e.percentage = .nan) ∧
    c ∉ compWarnings d sel p ∧
    (∃ e ∈ latestData d sel p, e.country = c ∧ e.percentage = .nan) ∧
    (∃ e ∈ pySortDescByPct (latestData d sel p),
      e.country = c ∧ e.percentage = .nan) ∧
    (∃ bars, ((∃ x, renderComparison d sel p = .chart bars x) ∨
        renderComparison d sel p = .renderError bars) ∧
      ∃ e ∈ bars, e.country = c ∧ e.percentage = .nan) := by
  obtain ⟨nv, hnv⟩ := exceptToBool_true.mp hnum
  obtain ⟨ov, hov⟩ := exceptToBool_true.mp hobs
  have hcr : compRow d sel c p = .ok ⟨c, .nan, nv, ov⟩ := by
    simp [compRow, hpct, hnv, hov, Except.map, Except.bind, bind, pure,
      Except.pure, Val.mul100]
  have he_ld : (⟨c, .nan, nv, ov⟩ : CompEntry) ∈ latestData d sel p :=
    List.mem_filterMap.mpr ⟨c, hcsel, by rw [hcr]; rfl⟩
  refine ⟨⟨⟨c, .nan, nv, ov⟩, hcr, rfl, rfl⟩, ?_, ?_, ?_, ?_⟩
  · intro hmem
    have h2 := (List.mem_filter.mp hmem).2
    rw [hcr] at h2
    simp [Except.toBool] at h2
  · exact ⟨⟨c, .nan, nv, ov⟩, he_ld, rfl, rfl⟩
  · exact ⟨⟨c, .nan, nv, ov⟩, mem_pySortDescByPct.mpr he_ld, rfl, rfl⟩
  · cases hld : latestData d sel p with
    | nil => rw [hld] at he_ld; exact absurd he_ld (List.not_mem_nil _)
    | cons e0 es =>
      have hmem_sort : (⟨c, .nan, nv, ov⟩ : CompEntry)
          ∈ pySortDescByPct (e0 :: es) :=
        mem_pySortDescByPct.mpr (hld ▸ he_ld)
      cases hout : pySortDescByPct (e0 :: es) with
      | nil => rw [hout] at hmem_sort; exact absurd hmem_sort (List.not_mem_nil _)
      | cons o os =>
        rw [hout] at hmem_sort
        refine ⟨o :: os, ?_, ⟨c, .nan, nv, ov⟩, hmem_sort, rfl, rfl⟩
        cases hmv : valMulQ (pyMax o.percentage
            (os.map CompEntry.percentage)) (mkRat 12 10) with
        | num qv =>
          refine Or.inl ⟨qv, ?_⟩
          rw [renderComparison_eq hlen hld hout, hmv]
        | nan =>
          refine Or.inr ?_
          rw [renderComparison_eq hlen hld hout, hmv]

theorem comparison_nan_included_witness :
    2 ≤ (["A", "B"] : List String).length ∧
    "A" ∈ (["A", "B"] : List String) ∧
    pctLookup dsC5x ["A", "B"] "A" "P" = .ok .nan ∧
    (numLookup dsC5x ["A", "B"] "A" "P").toBool = true ∧
    (obsLookup dsC5x ["A", "B"] "A" "P").toBool = true ∧
    ((∃ e, compRow dsC5x ["A", "B"] "A" "P" = .ok e ∧
        e.country = "A" ∧ e.percentage = .nan) ∧
    "A" ∉ compWarnings dsC5x ["A", "B"] "P" ∧
    (∃ e ∈ latestData dsC5x ["A", "B"] "P",
      e.country = "A" ∧ e.percentage = .nan) ∧
    (∃ e ∈ pySortDescByPct (latestData dsC5x ["A", "B"] "P"),
      e.country = "A" ∧ e.percentage = .nan) ∧
    (∃ bars, ((∃ x, renderComparison dsC5x ["A", "B"] "P" = .chart bars x) ∨
        renderComparison dsC5x ["A", "B"] "P" = .renderError bars) ∧
      ∃ e ∈ bars, e.country = "A" ∧ e.percentage = .nan)) :=
  ⟨by decide, by decide, by decide, by decide, by decide,
    comparison_nan_included dsC5x ["A", "B"] "A" "P" (by decide) (by decide)
      (by decide) (by decide) (by decide)⟩

/-! ### Trend renderer lemmas -/

theorem listIdx_ok {α : Type} {xs : List α} {i : Nat} (h : i < xs.length) :
    listIdx xs i = .ok xs[i] := by
  rw [listIdx, List.getElem?_eq_getElem h]

theorem lineFor_ok {d : Dataset} {sel : List String}
    {colors : List (Nat × Nat × Nat)} {p c : String} {i : Nat}
    (hcsel : c ∈ sel) (hrow : ∃ r ∈ d.rows, r.country = c)
    (hi : i < colors.length) :
    ∃ vals, lineFor d sel colors p i c = .ok ⟨c, colors[i], vals⟩ := by
  obtain ⟨vals, hvals⟩ := mapM_ok_of_forall (fun y => trendPoint d sel c p y)
    years (fun y _ => trendPoint_ok hcsel hrow)
  refine ⟨vals, ?_⟩
  have hdef : lineFor d sel colors p i c
      = (years.mapM (fun y => trendPoint d sel c p y)).bind
          (fun vals2 => (listIdx colors i).bind
            (fun col => .ok ⟨c, col, vals2⟩)) := rfl
  rw [hdef, hvals, listIdx_ok hi]
  rfl

theorem renderTrendGo_ok (d : Dataset) (sel : List String) (p : String)
    (colors : List (Nat × Nat × Nat)) :
    ∀ (cs : List String) (i : Nat),
      (∀ c ∈ cs, c ∈ sel ∧ ∃ r ∈ d.rows, r.country = c) →
      i + cs.length ≤ colors.length →
      ∃ ls, renderTrendGo d sel p colors i cs = .ok ls ∧
        ls.map LineSeries.country = cs ∧
        ls.map LineSeries.color = (colors.drop i).take cs.length := by
  intro cs
  induction cs with
  | nil => exact fun i _ _ => ⟨[], rfl, rfl, by simp⟩
  | cons c cs ih =>
    intro i hall hlen
    have hc := hall c (List.mem_cons_self c cs)
    have hi : i < colors.length := by
      simp only [List.length_cons] at hlen; omega
    obtain ⟨vals, hline⟩ := lineFor_ok (p := p) hc.1 hc.2 hi
    obtain ⟨ls, hgo, hcountry, hcolor⟩ := ih (i + 1)
      (fun c2 h2 => hall c2 (List.mem_cons_of_mem _ h2))
      (by simp only [List.length_cons] at hlen; omega)
    refine ⟨⟨c, colors[i], vals⟩ :: ls, ?_, ?_, ?_⟩
    · have hdef : renderTrendGo d sel p colors i (c :: cs)
          = (lineFor d sel colors p i c).bind (fun l =>
              (renderTrendGo d sel p colors (i + 1) cs).bind
                (fun ls2 => .ok (l :: ls2))) := rfl
      rw [hdef, hline, hgo]
      rfl
    · simp [hcountry]
    · have hdrop : colors.drop i = colors[i] :: colors.drop (i + 1) :=
        List.drop_eq_getElem_cons hi
      rw [List.map_cons, hcolor, hdrop, List.length_cons,
        List.take_succ_cons]

/-- C7 counterexample: for the non-empty selection of the 11 countries of
`selC7`, the trend render does not produce one line per country — seaborn
returns only the 10 tab10 colors, and the color lookup for the 11th country
raises `IndexError`, so the loop aborts with no complete chart. -/
theorem trend_lines_counterexample :
    renderTrendLines dsC7x selC7 "Scaler" = .error .indexError ∧
    selC7 ≠ [] ∧ selC7.length = 11 := by
  refine ⟨by decide, by decide, by decide⟩

/-- C7 amended: for every non-empty selection of at most 10 countries (the
tab10 palette size) whose members are present in the dataset, the trend
chart contains exactly one line series per selected country, drawn in
selection order, the i-th selected country gets the i-th tab10 palette
color, and the line colors are pairwise distinct.  With more than 10
selected countries the palette is capped at 10 colors and the render fails
with an `IndexError` instead (see the counterexample). -/
theorem trend_lines_structure (d : Dataset) (sel : List String) (p : String)
    (hne : sel ≠ []) (hlen : sel.length ≤ 10)
    (hrows : ∀ c ∈ sel, ∃ r ∈ d.rows, r.country = c) :
    ∃ lines, renderTrendLines d sel p = .ok lines ∧
      lines.map LineSeries.country = sel ∧
      lines.map LineSeries.color = colorPaletteTab10 sel.length ∧
      (lines.map LineSeries.color).Nodup := by
  have hplen : (colorPaletteTab10 sel.length).length = sel.length := by
    rw [colorPaletteTab10, List.length_take]
    have h10 : tab10.length = 10 := rfl
    rw [h10]
    exact Nat.min_eq_left hlen
  obtain ⟨ls, hgo, hcountry, hcolor⟩ := renderTrendGo_ok d sel p
    (colorPaletteTab10 sel.length) sel 0
    (fun c hc => ⟨hc, hrows c hc⟩) (by rw [hplen]; omega)
  have hcols : ls.map LineSeries.color = colorPaletteTab10 sel.length := by
    rw [hcolor, List.drop_zero]
    exact List.take_of_length_le (le_of_eq hplen)
  refine ⟨ls, hgo, hcountry, hcols, ?_⟩
  rw [hcols, colorPaletteTab10]
  exact (List.take_sublist _ _).nodup (by decide)

theorem trend_lines_structure_witness :
    (["A", "B"] : List String) ≠ [] ∧
    (["A", "B"] : List String).length ≤ 10 ∧
    (∀ c ∈ (["A", "B"] : List String), ∃ r ∈ dsC7w.rows, r.country = c) ∧
    (∃ lines, renderTrendLines dsC7w ["A", "B"] "Scaler" = .ok lines ∧
      lines.map LineSeries.country = ["A", "B"] ∧
      lines.map LineSeries.color
        = colorPaletteTab10 (["A", "B"] : List String).length ∧
      (lines.map LineSeries.color).Nodup) :=
  ⟨by decide, by decide, by decide,
    trend_lines_structure dsC7w ["A", "B"] "Scaler" (by decide) (by decide)
      (by decide)⟩

/-! ### Trend axis lemmas -/

theorem le_foldl_max (l : List ℚ) : ∀ a b : ℚ, a ≤ b → a ≤ l.foldl max b := by
  induction l with
  | nil => exact fun a b h => h
  | cons x xs ih =>
    exact fun a b h => ih a (max b x) (le_trans h (le_max_left b x))

theorem foldl_min_le (l : List ℚ) : ∀ a b : ℚ, b ≤ a → l.foldl min b ≤ a := by
  induction l with
  | nil => exact fun a b h => h
  | cons x xs ih =>
    exact fun a b h => ih a (min b x) (le_trans (min_le_left b x) h)

/-- C4 counterexample: for one country with plotted values 0 and 10, the
charted upper bound is 11.55, not 1.1 x 10 = 11 — matplotlib's `get_ylim`
includes the default 5% autoscale margin above the data maximum, and the
code scales that margin-inflated top, not the data maximum itself. -/
theorem trend_upper_bound_counterexample :
    (renderTrendLines dsC4x ["A"] "P").map
        (fun ls => ((trendYlim ls).2, finiteVals (plottedOf ls)))
      = .ok (mkRat 231 20, [0, 10]) ∧
    mkRat 231 20 ≠ mkRat 11 10 * 10 := by
  refine ⟨by decide, by decide⟩

/-- C4 amended: when at least one plotted point is non-missing, the finite
plotted values are not all equal, and the autoscaled top (data maximum plus
the 5% margin over the data range) is nonzero, the trend chart's y-axis
upper bound equals 1.1 times that autoscaled top: 1.1 x (max + 0.05 x (max
- min)) over the non-missing plotted values — not 1.1 times the maximum
alone as claimed (see the counterexample). -/
theorem trend_upper_bound (d : Dataset) (sel : List String) (p : String)
    (lines : List LineSeries) (q : ℚ) (qs : List ℚ)
    (hok : renderTrendLines d sel p = .ok lines)
    (hfv : finiteVals (plottedOf lines) = q :: qs)
    (hlt : qListMin q qs < qListMax q qs)
    (hnz : qListMax q qs + mkRat 1 20 * (qListMax q qs - qListMin q qs)
      ≠ 0) :
    (trendYlim lines).2
      = mkRat 11 10
        * (qListMax q qs + mkRat 1 20 * (qListMax q qs - qListMin q qs)) := by
  have hauto : autoYlim (plottedOf lines)
      = (qListMin q qs - mkRat 1 20 * (qListMax q qs - qListMin q qs),
         qListMax q qs + mkRat 1 20 * (qListMax q qs - qListMin q qs)) := by
    simp only [autoYlim, hfv]
    rw [nonsingularLim, if_neg (ne_of_lt hlt)]
  have ht : (qListMax q qs + mkRat 1 20 * (qListMax q qs - qListMin q qs))
      * mkRat 11 10 ≠ 0 := mul_ne_zero hnz (by decide)
  simp only [trendYlim, hauto, setYlim]
  rw [if_neg (Ne.symm ht)]
  exact mul_comm _ _

theorem trend_upper_bound_witness :
    renderTrendLines dsC4x ["A"] "P" = .ok linesC4 ∧
    finiteVals (plottedOf linesC4) = 0 :: [10] ∧
    qListMin 0 [10] < qListMax 0 [10] ∧
    qListMax 0 [10] + mkRat 1 20 * (qListMax 0 [10] - qListMin 0 [10])
      ≠ 0 ∧
    (trendYlim linesC4).2
      = mkRat 11 10
        * (qListMax 0 [10]
            + mkRat 1 20 * (qListMax 0 [10] - qListMin 0 [10])) :=
  ⟨by decide, by decide, by decide, by decide,
    trend_upper_bound dsC4x ["A"] "P" linesC4 0 [10] (by decide) (by decide)
      (by decide) (by decide)⟩

/-- C8 counterexample: with plotted percentages -5 and -105, the autoscaled
top is exactly 0, the code calls `set_ylim(0, 0)`, and matplotlib expands
the identical limits to (-1, 1): the y-axis lower bound is -1, not 0. -/
theorem trend_lower_bound_counterexample :
    (renderTrendLines dsC8x ["A"] "P").map (fun ls => trendYlim ls)
      = .ok (-1, 1) ∧ (-1 : ℚ) ≠ 0 := by
  refine ⟨by decide, by decide⟩

/-- C8 amended: whenever every non-missing plotted value is nonnegative (in
particular for well-formed fraction data, and regardless of magnitude), the
trend chart's y-axis lower bound is exactly 0.  For negative data whose
autoscaled top is exactly 0, `set_ylim(0, 0)` instead triggers matplotlib's
identical-limits expansion and the lower bound is -1 (see the
counterexample). -/
theorem trend_lower_bound (d : Dataset) (sel : List String) (p : String)
    (lines : List LineSeries) (hok : renderTrendLines d sel p = .ok lines)
    (hnn : ∀ q ∈ finiteVals (plottedOf lines), 0 ≤ q) :
    (trendYlim lines).1 = 0 := by
  have h120 : (mkRat 1 20 : ℚ) = 1 / 20 := by
    norm_num [Rat.mkRat_eq_div]
  have htop : 0 < (autoYlim (plottedOf lines)).2 := by
    cases hfv : finiteVals (plottedOf lines) with
    | nil => simp only [autoYlim, hfv]; norm_num
    | cons q qs =>
      have hq0 : 0 ≤ q := hnn q (hfv ▸ List.mem_cons_self q qs)
      have hqmax : q ≤ qListMax q qs := le_foldl_max qs q q (le_refl q)
      have hminmax : qListMin q qs ≤ qListMax q qs :=
        le_trans (foldl_min_le qs q q (le_refl q)) hqmax
      simp only [autoYlim, hfv]
      by_cases heq : qListMin q qs = qListMax q qs
      · rw [nonsingularLim, if_pos heq, h120]
        show (0 : ℚ) < qListMax q qs + 1
          + 1 / 20 * (qListMax q qs + 1 - (qListMin q qs - 1))
        rw [heq]
        nlinarith [le_trans hq0 hqmax]
      · rw [nonsingularLim, if_neg heq, h120]
        show (0 : ℚ) < qListMax q qs
          + 1 / 20 * (qListMax q qs - qListMin q qs)
        have hlt : qListMin q qs < qListMax q qs :=
          lt_of_le_of_ne hminmax heq
        nlinarith [le_trans hq0 hqmax]
  have ht : (0 : ℚ) < (autoYlim (plottedOf lines)).2 * mkRat 11 10 := by
    apply mul_pos htop
    rw [show (mkRat 11 10 : ℚ) = 11 / 10 by norm_num [Rat.mkRat_eq_div]]
    norm_num
  simp only [trendYlim, setYlim]
  rw [if_neg (ne_of_lt ht)]

theorem trend_lower_bound_witness :
    renderTrendLines dsC8w ["A"] "P" = .ok linesC8 ∧
    (∀ q ∈ finiteVals (plottedOf linesC8), 0 ≤ q) ∧
    (trendYlim linesC8).1 = 0 :=
  ⟨by decide, by decide,
    trend_lower_bound dsC8w ["A"] "P" linesC8 (by decide) (by decide)⟩

/-- C9: no operation of a render pass mutates the loaded dataset: the pass
hands back the table it was given, and the selection filter leaves the
column space untouched — every dataframe operation the script performs
(`isin` filtering, boolean-mask row selection, column reads, `.iloc`)
derives new values without writing back into the table. -/
theorem render_pass_preserves_dataset (d : Dataset) (sel : List String)
    (p : String) :
    (renderPass d sel p).2 = d ∧ (d.filterCountries sel).cols = d.cols :=
  ⟨rfl, rfl⟩

end ScaleupMonitor
